import Mathlib

/-!
Verification of `MARBL_diags_to_diag_table.py` (MOM_interface).

The program converts a line-oriented MARBL diagnostics file into a JSON
diag-table document.  We shallowly embed its three parts:

* `_parse_line` — modelled on `List Char` (a Python `str` is a sequence of
  characters); `pySplit` and `pyStrip` mirror `str.split(sep)` (single
  character separator, keeping empty fields) and `str.strip()` (ASCII
  whitespace).
* `DiagTableClass` — the registry `_diag_table_dict` is an insertion-ordered
  association list from tier name to `Template`; `update` and `dumpAll`
  (for `dump_to_json`) mirror the Python methods, returning `Option` where
  the Python code would raise an uncaught `KeyError`/`IndexError`.
  `dump_to_json`'s `dict.copy()` is shallow, so the transports append mutates
  the stored template as well; `dumpAll` therefore returns both the produced
  "Files" document and the registry as it stands after the dump.
* `diagnostics_to_diag_table` — the per-line loop (`processLine` /
  `processLines`) with the ALT_CO2 skip, the global duplicate-frequency
  check (`processed_vars`) and the call into `update`.
-/

/-- Python `str.isspace` on the ASCII whitespace characters recognised by
`str.strip()`. -/
def isPySpace (c : Char) : Bool :=
  c = ' ' || c = '\t' || c = '\n' || c = '\r' || c = '\x0B' || c = '\x0C'

/-- Python `s.split(sep)` for a one-character separator: splits at every
occurrence of `sep`, keeping empty fields; `"".split(sep) = [""]`.
The `[] => [[c]]` branch is unreachable (`pySplit` never returns `[]`). -/
def pySplit (sep : Char) : List Char → List (List Char)
  | [] => [[]]
  | c :: cs =>
    if c = sep then [] :: pySplit sep cs
    else
      match pySplit sep cs with
      | p :: ps => (c :: p) :: ps
      | [] => [[c]]

/-- Removal of trailing characters satisfying `isPySpace` (the second half of
Python `str.strip()`). -/
def dTrail (l : List Char) : List Char :=
  (l.reverse.dropWhile isPySpace).reverse

/-- Python `s.strip()`: remove leading and trailing whitespace. -/
def pyStrip (s : List Char) : List Char :=
  dTrail (s.dropWhile isPySpace)

/-- The two fatal-exit sites of `_parse_line`: the `len(line_split) != 2`
check on `':'` and the `len(freq_op_split) != 2` check on `'_'`. -/
inductive ParseErr where
  | badName
  | badFreqOp
deriving DecidableEq

/-- The loop `for freq_op in line_split[1].split(',')` of `_parse_line`:
each entry is stripped and must split into exactly two parts on `'_'`;
the first parts are collected as frequencies, the second as operators. -/
def parseEntries : List (List Char) → Except ParseErr (List (List Char) × List (List Char))
  | [] => .ok ([], [])
  | e :: rest =>
    match pySplit '_' (pyStrip e) with
    | [f, o] =>
      match parseEntries rest with
      | .ok (fs, os) => .ok (f :: fs, o :: os)
      | .error err => .error err
    | _ => .error .badFreqOp

/-- Body of `_parse_line` after `line_loc = line_in.split('#')[0].strip()`
has been computed. -/
def parseCore (line_loc : List Char) : Except ParseErr (Option (List Char × List (List Char) × List (List Char))) :=
  if line_loc.length = 0 then .ok none
  else
    match pySplit ':' line_loc with
    | [a, b] =>
      match parseEntries (pySplit ',' b) with
      | .ok (fs, os) => .ok (some (pyStrip a, fs, os))
      | .error e => .error e
    | _ => .error .badName

/-- Model of `_parse_line`: strips the `#` comment and surrounding
whitespace, returns `none` for a blank result, the `(name, freq, op)`
triple for a well-formed line, and an error where the Python code calls
`sys.exit(1)`. -/
def parse_line (line_in : List Char) : Except ParseErr (Option (List Char × List (List Char) × List (List Char))) :=
  parseCore (pyStrip ((pySplit '#' line_in).headD []))

/-- String-or-conditional-dictionary values such as the `suffix` argument of
`_dict_template` (`{'$OCN_DIAG_MODE == "spinup"': ..., "else": ...}`).
The Python dict is insertion ordered, hence an association list. -/
inductive StrVal where
  | str : String → StrVal
  | cond : List (String × String) → StrVal
deriving DecidableEq

/-- Integer-or-conditional-dictionary values such as the `output_freq`
argument of `_dict_template`. -/
inductive NatVal where
  | num : Nat → NatVal
  | cond : List (String × Nat) → NatVal
deriving DecidableEq

/-- One entry of a template's `"fields"` list:
`{"module": module, "packing": packing, "lists": [[]]}`. -/
structure FieldEntry where
  module : String
  packing : Nat
  lists : List (List String)
deriving DecidableEq

/-- The dictionary built by `DiagTableClass._dict_template`. -/
structure Template where
  suffix : StrVal
  output_freq : NatVal
  new_file_freq : Nat
  output_freq_units : StrVal
  new_file_freq_units : StrVal
  time_axis_units : String
  reduction_method : String
  regional_section : String
  fields : List FieldEntry
deriving DecidableEq

/-- `DiagTableClass._dict_template`.  All Python defaults are passed
explicitly at the call sites below (`new_file_freq_units = None`,
`output_freq = 1`, `new_file_freq = 1`, `module = "ocean_model"`,
`packing = 1`); `none` for `new_file_freq_units` selects
`output_freq_units`, as in the source. -/
def dict_template (suffix : StrVal) (output_freq_units : StrVal)
    (new_file_freq_units : Option StrVal) (output_freq : NatVal)
    (new_file_freq : Nat) (module : String) (packing : Nat) : Template :=
  { suffix := suffix
    output_freq := output_freq
    new_file_freq := new_file_freq
    output_freq_units := output_freq_units
    new_file_freq_units := new_file_freq_units.getD output_freq_units
    time_axis_units := "days"
    reduction_method := "mean"
    regional_section := "none"
    fields := [{ module := module, packing := packing, lists := [[]] }] }

/-- The registry `self._diag_table_dict`: a Python dict from tier name to
template, i.e. an insertion-ordered association list with distinct keys. -/
def Registry := List (String × Template)

instance : DecidableEq Registry := by
  unfold Registry
  infer_instance

/-- Condition key `'$OCN_DIAG_MODE == "spinup"'` used by the constructor. -/
def spinupKey : String := "$OCN_DIAG_MODE == \"spinup\""

/-- Condition key `"$TEST == True"` used by the constructor. -/
def testKey : String := "$TEST == True"

/-- `DiagTableClass.__init__(vert_grid)`: one template per
(frequency tier × vertical-grid variant), in insertion order
medium, medium_z, medium_native_z, high, high_z, high_native_z,
low, low_z, low_native_z, the variants guarded by `vert_grid`. -/
def dtInit (vert_grid : String) : Registry :=
  [("medium",
     dict_template
       (.cond [(spinupKey, "h_bgc_annual%4yr"), (testKey, "h_bgc_daily%4yr-%2mo-%2dy"), ("else", "h_bgc_monthly%4yr-%2mo")])
       (.cond [(spinupKey, "years"), (testKey, "days"), ("else", "months")])
       none (.num 1) 1 "ocean_model" 1)]
  ++ (if vert_grid = "interpolated" ∨ vert_grid = "both" then
      [("medium_z",
         dict_template
           (.cond [(spinupKey, "h_bgc_annual_z%4yr"), (testKey, "h_bgc_daily_z%4yr-%2mo-%2dy"), ("else", "h_bgc_monthly_z%4yr-%2mo")])
           (.cond [(spinupKey, "years"), (testKey, "days"), ("else", "months")])
           none (.num 1) 1 "ocean_model_z" 1)] else [])
  ++ (if vert_grid = "native" ∨ vert_grid = "both" then
      [("medium_native_z",
         dict_template
           (.cond [(spinupKey, "hm_bgc_annual_z%4yr"), (testKey, "hm_bgc_daily_z%4yr-%2mo-%2dy"), ("else", "hm_bgc_monthly_z%4yr-%2mo")])
           (.cond [(spinupKey, "years"), (testKey, "days"), ("else", "months")])
           none (.num 1) 1 "ocean_model" 1)] else [])
  ++ [("high",
     dict_template
       (.cond [(spinupKey, "h_bgc_daily5%4yr"), ("else", "h_bgc_daily%4yr-%2mo")])
       (.str "days")
       (some (.cond [(spinupKey, "years"), ("else", "months")]))
       (.cond [(spinupKey, 5), ("else", 1)]) 1 "ocean_model" 1)]
  ++ (if vert_grid = "interpolated" ∨ vert_grid = "both" then
      [("high_z",
         dict_template
           (.cond [(spinupKey, "h_bgc_daily5_z%4yr"), ("else", "h_bgc_daily_z%4yr-%2mo")])
           (.str "days")
           (some (.cond [(spinupKey, "years"), ("else", "months")]))
           (.cond [(spinupKey, 5), ("else", 1)]) 1 "ocean_model_z" 1)] else [])
  ++ (if vert_grid = "native" ∨ vert_grid = "both" then
      [("high_native_z",
         dict_template
           (.cond [(spinupKey, "hm_bgc_daily5_z%4yr"), ("else", "hm_bgc_daily_z%4yr-%2mo")])
           (.str "days")
           (some (.cond [(spinupKey, "years"), ("else", "months")]))
           (.cond [(spinupKey, 5), ("else", 1)]) 1 "ocean_model" 1)] else [])
  ++ [("low",
     dict_template
       (.cond [(spinupKey, "h_bgc_annual2%4yr"), ("else", "h_bgc_annual%4yr")])
       (.str "years")
       none (.num 1) 1 "ocean_model" 1)]
  ++ (if vert_grid = "interpolated" ∨ vert_grid = "both" then
      [("low_z",
         dict_template
           (.cond [(spinupKey, "h_bgc_annual2_z%4yr"), ("else", "h_bgc_annual_z%4yr")])
           (.str "years")
           none (.num 1) 1 "ocean_model_z" 1)] else [])
  ++ (if vert_grid = "native" ∨ vert_grid = "both" then
      [("low_native_z",
         dict_template
           (.cond [(spinupKey, "hm_bgc_annual2_z%4yr"), ("else", "hm_bgc_annual_z%4yr")])
           (.str "years")
           none (.num 1) 1 "ocean_model" 1)] else [])

/-- Python dict lookup `d[k]` on an association list (first match). -/
def aLookup {β : Type} : List (String × β) → String → Option β
  | [], _ => none
  | (k2, v) :: rest, k => if k2 = k then some v else aLookup rest k

/-- `template["fields"][0]["lists"][0].append(varname)`: `none` models the
`IndexError` Python would raise if `fields` or `lists` were empty (never the
case for constructed templates). -/
def templAppend (v : String) (t : Template) : Option Template :=
  match t.fields with
  | fe :: rest =>
    match fe.lists with
    | l :: ls => some { t with fields := { fe with lists := (l ++ [v]) :: ls } :: rest }
    | [] => none
  | [] => none

/-- In-place update `d[k] = f(d[k])` on the association list; `none` models
the uncaught `KeyError` when `k` is absent (or `f` itself fails). -/
def updKey (r : Registry) (k : String) (f : Template → Option Template) : Option Registry :=
  match r with
  | [] => none
  | (k2, t) :: rest =>
    if k2 = k then (f t).map (fun t2 => (k2, t2) :: rest)
    else (updKey rest k f).map (fun r2 => (k2, t) :: r2)

/-- `self._diag_table_dict[key]["fields"][0]["lists"][0].append(varname)`. -/
def appendVarKey (r : Registry) (k : String) (v : String) : Option Registry :=
  updKey r k (templAppend v)

/-- One iteration of the `for freq in use_freq` loop of
`DiagTableClass.update`: skip `"never"`, 2D appends to the base tier, 3D
appends to the `_z` variant when `vert_grid` includes interpolated and then
to the `_native_z` variant when it includes native. -/
def upd1 (r : Registry) (varname : String) (is2D : Bool) (vert_grid : String)
    (freq : String) : Option Registry :=
  if freq = "never" then some r
  else if is2D then appendVarKey r freq varname
  else
    match (if vert_grid = "interpolated" ∨ vert_grid = "both" then
             appendVarKey r (freq ++ "_z") varname
           else some r) with
    | none => none
    | some r2 =>
      if vert_grid = "native" ∨ vert_grid = "both" then
        appendVarKey r2 (freq ++ "_native_z") varname
      else some r2

/-- The `for freq in use_freq` loop of `DiagTableClass.update`. -/
def updList (varname : String) (is2D : Bool) (vert_grid : String) :
    Registry → List String → Option Registry
  | r, [] => some r
  | r, f :: fs =>
    match upd1 r varname is2D vert_grid f with
    | none => none
    | some r2 => updList varname is2D vert_grid r2 fs

/-- `DiagTableClass.update(varname, frequency, is2D, lMARBL_output_all,
vert_grid)`: with `lMARBL_output_all` the frequency list is replaced by
`['medium']`, otherwise it is copied element by element. -/
def update (r : Registry) (varname : String) (frequency : List String)
    (is2D : Bool) (lMARBL_output_all : Bool) (vert_grid : String) : Option Registry :=
  updList varname is2D vert_grid r (if lMARBL_output_all then ["medium"] else frequency)

/-- The hardcoded transport list of `dump_to_json`. -/
def transports : List String :=
  ["volcello", "vmo", "vhGM", "vhml", "umo", "uhGM", "uhml"]

/-- Python `freq[-2:]`: the last two characters (the whole string when it is
shorter than two characters). -/
def pyLast2 (s : String) : List Char :=
  s.data.drop (s.data.length - 2)

/-- One iteration of the `for freq in self._diag_table_dict` loop of
`dump_to_json`.  Returns `(serialized entry or none, template as left in the
registry)`; `none` overall models the `IndexError` on a structurally broken
template.  Because `self._diag_table_dict[freq].copy()` is a shallow copy,
`out_dict[...]["fields"][0]["lists"].append(transports)` mutates the stored
template too: in the qualifying branch both components receive the appended
list. -/
def dumpStep (freq : String) (t : Template) : Option (Option Template × Template) :=
  match t.fields with
  | [] => none
  | fe :: rest =>
    match fe.lists with
    | [] => none
    | l :: ls =>
      if 0 < l.length then
        if fe.module = "ocean_model" ∧ pyLast2 freq = "_z".data then
          let t2 : Template :=
            { t with fields := { fe with lists := (l :: ls) ++ [transports] } :: rest }
          some (some t2, t2)
        else some (some t, t)
      else some (none, t)

/-- The loop of `dump_to_json` over the registry, producing the
`out_dict["Files"]` association list and the registry as it stands after the
dump (the two differ from sharing through the shallow copy). -/
def dumpAll : Registry → Option (List (String × Template) × Registry)
  | [] => some ([], [])
  | (k, t) :: rest =>
    match dumpStep k t with
    | none => none
    | some (e, t2) =>
      match dumpAll rest with
      | none => none
      | some (fs, r2) =>
        some ((match e with | some x => [(k, x)] | none => []) ++ fs, (k, t2) :: r2)

/-- Tail of `dump_to_json`: `if out_dict["Files"]:` — a JSON file is written
exactly when the "Files" dict is non-empty. -/
def dumpWrites (r : Registry) : Option Bool :=
  (dumpAll r).map (fun p => !p.1.isEmpty)

/-- Tail of `dump_to_json`: the `WARNING: no JSON file written` message is
printed exactly when the "Files" dict is empty. -/
def dumpWarns (r : Registry) : Option Bool :=
  (dumpAll r).map (fun p => p.1.isEmpty)

/-- Whether `pat` is a prefix of `s` (character-wise). -/
def startsWithL : List Char → List Char → Bool
  | [], _ => true
  | _ :: _, [] => false
  | p :: ps, c :: cs => p = c && startsWithL ps cs

/-- Python `pat in s` on strings: substring containment. -/
def hasSubstr : List Char → List Char → Bool
  | pat, [] => pat.isEmpty
  | pat, c :: cs => startsWithL pat (c :: cs) || hasSubstr pat cs

/-- Fatal outcomes of the `diagnostics_to_diag_table` per-line loop:
a `_parse_line` `sys.exit(1)`, the duplicate-frequency `sys.exit(1)`, or an
uncaught `KeyError` escaping `DiagTableClass.update`. -/
inductive RunErr where
  | parseErr (e : ParseErr)
  | dupFreq
  | keyErr
deriving DecidableEq

/-- The mutable state threaded through the loop: `processed_vars` (a dict
from frequency tag to the list of already-seen variable names) and the
`DiagTableClass` registry. -/
structure PState where
  processed : List (List Char × List (List Char))
  registry : Registry
deriving DecidableEq

/-- Python dict lookup on the `processed_vars` association list. -/
def pvLookup : List (List Char × List (List Char)) → List Char → Option (List (List Char))
  | [], _ => none
  | (k2, v) :: rest, k => if k2 = k then some v else pvLookup rest k

/-- Python dict assignment `d[k] = v`: update the existing key in place or
append a new key at the end (insertion order). -/
def pvSet : List (List Char × List (List Char)) → List Char → List (List Char) →
    List (List Char × List (List Char))
  | [], k, v => [(k, v)]
  | (k2, v2) :: rest, k, v =>
    if k2 = k then (k2, v) :: rest else (k2, v2) :: pvSet rest k v

/-- The value `processed_vars[freq]` after the
`if freq not in processed_vars: processed_vars[freq] = []` guard. -/
def pvGet (pv : List (List Char × List (List Char))) (f : List Char) : List (List Char) :=
  (pvLookup pv f).getD []

/-- One iteration of the duplicate check: guard-insert the key, abort when
`varname in processed_vars[freq]`, otherwise record the name. -/
def pvStep (pv : List (List Char × List (List Char))) (f name : List Char) :
    Except RunErr (List (List Char × List (List Char))) :=
  if name ∈ pvGet pv f then .error .dupFreq
  else .ok (pvSet pv f (pvGet pv f ++ [name]))

/-- The `for freq in frequency` duplicate-check loop of
`diagnostics_to_diag_table` (step ii). -/
def dupLoop (pv : List (List Char × List (List Char))) (name : List Char) :
    List (List Char) → Except RunErr (List (List Char × List (List Char)))
  | [] => .ok pv
  | f :: fs =>
    match pvStep pv f name with
    | .error e => .error e
    | .ok pv2 => dupLoop pv2 name fs

/-- Steps i–iii of the `for line in all_lines` loop of
`diagnostics_to_diag_table` for a line that parsed to a declaration:
skip — unless `lMARBL_output_alt_co2` — names containing `"ALT_CO2"`, run
the global duplicate check, classify 2D by membership in `diag2D_list`, and
call `update`. -/
def processDecl (diag2D_list : List String) (vert_grid : String)
    (lMARBL_output_all lMARBL_output_alt_co2 : Bool) (st : PState)
    (varname : List Char) (frequency _operator : List (List Char)) :
    Except RunErr PState :=
  if !lMARBL_output_alt_co2 && hasSubstr "ALT_CO2".data varname then .ok st
  else
    match dupLoop st.processed varname frequency with
    | .error e => .error e
    | .ok pv2 =>
      match update st.registry (String.mk varname) (frequency.map String.mk)
          (decide (String.mk varname ∈ diag2D_list)) lMARBL_output_all vert_grid with
      | none => .error .keyErr
      | some r2 => .ok ⟨pv2, r2⟩

/-- One iteration of the `for line in all_lines` loop of
`diagnostics_to_diag_table`: parse (`_parse_line(line.strip())`), skip blank
lines, then handle the declaration. -/
def processLine (diag2D_list : List String) (vert_grid : String)
    (lMARBL_output_all lMARBL_output_alt_co2 : Bool) (st : PState) (line : List Char) :
    Except RunErr PState :=
  match parse_line (pyStrip line) with
  | .error e => .error (.parseErr e)
  | .ok none => .ok st
  | .ok (some (varname, frequency, op)) =>
    processDecl diag2D_list vert_grid lMARBL_output_all lMARBL_output_alt_co2
      st varname frequency op

/-- The whole `for line in all_lines` loop. -/
def processLines (diag2D_list : List String) (vert_grid : String)
    (lMARBL_output_all lMARBL_output_alt_co2 : Bool) :
    PState → List (List Char) → Except RunErr PState
  | st, [] => .ok st
  | st, l :: ls =>
    match processLine diag2D_list vert_grid lMARBL_output_all lMARBL_output_alt_co2 st l with
    | .error e => .error e
    | .ok st2 => processLines diag2D_list vert_grid lMARBL_output_all lMARBL_output_alt_co2 st2 ls

/-- The user-visible variable list `t["fields"][0]["lists"][0]` of a
template, when structurally present. -/
def tvl (t : Template) : Option (List String) :=
  match t.fields with
  | fe :: _ =>
    match fe.lists with
    | l :: _ => some l
    | [] => none
  | [] => none

/-- The user-visible variable list of the template at key `k`:
`r[k]["fields"][0]["lists"][0]` when present. -/
def vlist (r : Registry) (k : String) : Option (List String) :=
  (aLookup r k).bind tvl

/-- The template at key `k` with `fields[0]["lists"][0]` blanked out: every
other component of the template (suffix, frequencies, module, packing, the
shape of `lists`, further `fields` entries). -/
def eraseVlist (t : Template) : Template :=
  { t with fields :=
      match t.fields with
      | fe :: rest =>
        { fe with lists :=
            match fe.lists with
            | _ :: ls => [] :: ls
            | [] => [] } :: rest
      | [] => [] }

/-- Everything of the entry at key `k` except its user variable list. -/
def shellAt (r : Registry) (k : String) : Option Template :=
  (aLookup r k).map eraseVlist

/-- How many times one frequency tag `f` makes `update` append `varname` to
the tier key `k` (the specification-side counting function): `"never"` is
skipped, a 2D variable targets the base tier `f`, a 3D variable targets
`f ++ "_z"` when the vertical grid includes interpolated and
`f ++ "_native_z"` when it includes native. -/
def nTargets (is2D : Bool) (vert_grid : String) (f k : String) : Nat :=
  if f = "never" then 0
  else if is2D then (if k = f then 1 else 0)
  else
    (if (vert_grid = "interpolated" ∨ vert_grid = "both") ∧ k = f ++ "_z" then 1 else 0)
    + (if (vert_grid = "native" ∨ vert_grid = "both") ∧ k = f ++ "_native_z" then 1 else 0)

/-- Total number of appends of `varname` to key `k` over a frequency list. -/
def totalAppends (fs : List String) (is2D : Bool) (vert_grid k : String) : Nat :=
  (fs.map (fun f => nTargets is2D vert_grid f k)).sum

/-- Whether the registry holds key `k` with a non-empty user variable list
(the serialization condition of `dump_to_json`). -/
def tierNonemptyAt (r : Registry) (k : String) : Bool :=
  match vlist r k with
  | some l => decide (0 < l.length)
  | none => false

/-- The whole `"lists"` entry (user list and any appended transport list) of
the template at key `k`. -/
def vlistsAt (r : Registry) (k : String) : Option (List (List String)) :=
  (aLookup r k).bind (fun t =>
    match t.fields with
    | fe :: _ => some fe.lists
    | [] => none)

/-- Whether an `Except` computation ended at a `sys.exit(1)` site. -/
def isError {ε α : Type} : Except ε α → Bool
  | .error _ => true
  | .ok _ => false

/-- Value of a successful `Except` computation, with a default. -/
def exGetD {ε α : Type} (e : Except ε α) (d : α) : α :=
  match e with
  | .ok a => a
  | .error _ => d

/-- Sample registry: vertical grid "both" after
`update("FOO", ["low"], is2D=False, lMARBL_output_all=False, "both")`. -/
def sampleReg : Registry :=
  (update (dtInit "both") "FOO" ["low"] false false "both").getD []

/-- Sample dump: the "Files" document and post-dump registry produced by
`dump_to_json` on `sampleReg`. -/
def sampleDump : List (String × Template) × Registry :=
  (dumpAll sampleReg).getD ([], [])

/-- Sample registry: vertical grid "native" after
`update("BAR", ["low", "high"], is2D=False, lMARBL_output_all=True, "native")`. -/
def sampleRegAll : Registry :=
  (update (dtInit "native") "BAR" ["low", "high"] false true "native").getD []

/-- Sample loop state after processing the single line `"BAR : low_mean"`. -/
def sampleSt : PState :=
  exGetD (processLines [] "both" false false ⟨[], dtInit "both"⟩
    ["BAR : low_mean".data]) ⟨[], []⟩

theorem updKey_cons (k2 : String) (t : Template) (rest : Registry) (k : String)
    (f : Template → Option Template) :
    updKey ((k2, t) :: rest) k f =
      if k2 = k then (f t).map (fun t2 => (k2, t2) :: rest)
      else (updKey rest k f).map (fun r2 => (k2, t) :: r2) := rfl

theorem aLookup_updKey_self {r r' : Registry} {k : String}
    {f : Template → Option Template} (h : updKey r k f = some r') :
    ∃ t t2, aLookup r k = some t ∧ f t = some t2 ∧ aLookup r' k = some t2 := by
  induction r generalizing r' with
  | nil => simp [updKey] at h
  | cons p rest ih =>
    obtain ⟨k2, t⟩ := p
    rw [updKey_cons] at h
    by_cases hk : k2 = k
    · rw [if_pos hk] at h
      cases hft : f t with
      | none => rw [hft] at h; simp at h
      | some t2 =>
        rw [hft] at h
        simp only [Option.map_some'] at h
        injection h with h
        subst hk
        exact ⟨t, t2, by simp [aLookup], hft, by simp [← h, aLookup]⟩
    · rw [if_neg hk] at h
      cases hr2 : updKey rest k f with
      | none => rw [hr2] at h; simp at h
      | some r2 =>
        rw [hr2] at h
        simp only [Option.map_some'] at h
        injection h with h
        obtain ⟨t0, t2, hl, hf, hl'⟩ := ih hr2
        exact ⟨t0, t2, by simp [aLookup, hk, hl], hf, by simp [← h, aLookup, hk, hl']⟩

theorem aLookup_updKey_ne {r r' : Registry} {k : String}
    {f : Template → Option Template} (h : updKey r k f = some r')
    {k2 : String} (hne : k2 ≠ k) : aLookup r' k2 = aLookup r k2 := by
  induction r generalizing r' with
  | nil => simp [updKey] at h
  | cons p rest ih =>
    obtain ⟨k3, t⟩ := p
    rw [updKey_cons] at h
    by_cases hk : k3 = k
    · rw [if_pos hk] at h
      cases hft : f t with
      | none => rw [hft] at h; simp at h
      | some t2 =>
        rw [hft] at h
        simp only [Option.map_some'] at h
        injection h with h
        have hne2 : k3 ≠ k2 := fun hEq => hne (hEq ▸ hk)
        simp [← h, aLookup, hne2]
    · rw [if_neg hk] at h
      cases hr2 : updKey rest k f with
      | none => rw [hr2] at h; simp at h
      | some r2 =>
        rw [hr2] at h
        simp only [Option.map_some'] at h
        injection h with h
        by_cases hk2 : k3 = k2
        · simp [← h, aLookup, hk2]
        · simp [← h, aLookup, hk2, ih hr2]

theorem updKey_keys {r r' : Registry} {k : String}
    {f : Template → Option Template} (h : updKey r k f = some r') :
    r'.map Prod.fst = r.map Prod.fst := by
  induction r generalizing r' with
  | nil => simp [updKey] at h
  | cons p rest ih =>
    obtain ⟨k3, t⟩ := p
    rw [updKey_cons] at h
    by_cases hk : k3 = k
    · rw [if_pos hk] at h
      cases hft : f t with
      | none => rw [hft] at h; simp at h
      | some t2 =>
        rw [hft] at h
        simp only [Option.map_some'] at h
        injection h with h
        simp [← h]
    · rw [if_neg hk] at h
      cases hr2 : updKey rest k f with
      | none => rw [hr2] at h; simp at h
      | some r2 =>
        rw [hr2] at h
        simp only [Option.map_some'] at h
        injection h with h
        simp [← h, ih hr2]

theorem templAppend_spec {v : String} {t t2 : Template}
    (h : templAppend v t = some t2) :
    ∃ l, tvl t = some l ∧ tvl t2 = some (l ++ [v]) ∧ eraseVlist t2 = eraseVlist t := by
  cases tf : t.fields with
  | nil => simp [templAppend, tf] at h
  | cons fe rest =>
    cases tl : fe.lists with
    | nil => simp [templAppend, tf, tl] at h
    | cons l ls =>
      simp only [templAppend, tf, tl] at h
      injection h with h
      subst h
      refine ⟨l, by simp [tvl, tf, tl], by simp [tvl], by simp [eraseVlist, tf, tl]⟩

theorem appendVarKey_vlist {r r' : Registry} {k v : String}
    (h : appendVarKey r k v = some r') (k2 : String) :
    vlist r' k2 = if k2 = k then (vlist r k2).map (fun l => l ++ [v]) else vlist r k2 := by
  by_cases hk : k2 = k
  · subst hk
    obtain ⟨t, t2, hl, hf, hl'⟩ := aLookup_updKey_self h
    obtain ⟨l, htv, htv2, _⟩ := templAppend_spec hf
    simp [vlist, hl, hl', htv, htv2]
  · simp [vlist, hk, aLookup_updKey_ne h hk]

theorem appendVarKey_shell {r r' : Registry} {k v : String}
    (h : appendVarKey r k v = some r') (k2 : String) :
    shellAt r' k2 = shellAt r k2 := by
  by_cases hk : k2 = k
  · subst hk
    obtain ⟨t, t2, hl, hf, hl'⟩ := aLookup_updKey_self h
    obtain ⟨l, _, _, hsh⟩ := templAppend_spec hf
    simp [shellAt, hl, hl', hsh]
  · simp [shellAt, aLookup_updKey_ne h hk]

theorem appendVarKey_keys {r r' : Registry} {k v : String}
    (h : appendVarKey r k v = some r') :
    r'.map Prod.fst = r.map Prod.fst :=
  updKey_keys h

theorem upd1_spec {r r' : Registry} {varname : String} {is2D : Bool}
    {vg f : String} (h : upd1 r varname is2D vg f = some r') :
    (∀ k, vlist r' k = (vlist r k).map (fun l => l ++ List.replicate (nTargets is2D vg f k) varname))
    ∧ (∀ k, shellAt r' k = shellAt r k)
    ∧ r'.map Prod.fst = r.map Prod.fst := by
  by_cases hnever : f = "never"
  · rw [upd1, if_pos hnever] at h
    injection h with h
    subst h
    refine ⟨fun k => ?_, fun k => rfl, rfl⟩
    rw [nTargets, if_pos hnever]
    cases vlist r k <;> simp
  · rw [upd1, if_neg hnever] at h
    cases is2D with
    | true =>
      simp only [if_pos rfl] at h
      refine ⟨fun k => ?_, appendVarKey_shell h, appendVarKey_keys h⟩
      rw [appendVarKey_vlist h k, nTargets, if_neg hnever]
      by_cases hk : k = f
      · rw [if_pos hk, if_pos hk]
        cases vlist r k <;> simp
      · rw [if_neg hk, if_neg hk]
        cases vlist r k <;> simp
    | false =>
      simp only [Bool.false_eq_true, if_false] at h
      by_cases hc1 : vg = "interpolated" ∨ vg = "both"
      · rw [if_pos hc1] at h
        cases havk : appendVarKey r (f ++ "_z") varname with
        | none => rw [havk] at h; exact absurd h (by simp)
        | some r2 =>
          rw [havk] at h
          have h : (if vg = "native" ∨ vg = "both" then
              appendVarKey r2 (f ++ "_native_z") varname else some r2) = some r' := h
          by_cases hc2 : vg = "native" ∨ vg = "both"
          · rw [if_pos hc2] at h
            refine ⟨fun k => ?_, fun k => ?_, ?_⟩
            · rw [appendVarKey_vlist h k, appendVarKey_vlist havk k,
                nTargets, if_neg hnever]
              simp only [Bool.false_eq_true, if_false, hc1, hc2, true_and]
              by_cases hkz : k = f ++ "_z" <;> by_cases hkn : k = f ++ "_native_z"
              · rw [if_pos hkz, if_pos hkn, if_pos hkz, if_pos hkn]
                cases vlist r k <;> simp
              · rw [if_pos hkz, if_neg hkn, if_pos hkz, if_neg hkn]
                cases vlist r k <;> simp
              · rw [if_neg hkz, if_pos hkn, if_neg hkz, if_pos hkn]
                cases vlist r k <;> simp
              · rw [if_neg hkz, if_neg hkn, if_neg hkz, if_neg hkn]
                cases vlist r k <;> simp
            · rw [appendVarKey_shell h k, appendVarKey_shell havk k]
            · rw [appendVarKey_keys h, appendVarKey_keys havk]
          · rw [if_neg hc2] at h
            injection h with h
            subst h
            refine ⟨fun k => ?_, appendVarKey_shell havk, appendVarKey_keys havk⟩
            rw [appendVarKey_vlist havk k, nTargets, if_neg hnever]
            simp only [Bool.false_eq_true, if_false, hc1, hc2, true_and, false_and]
            by_cases hkz : k = f ++ "_z"
            · rw [if_pos hkz, if_pos hkz]
              cases vlist r k <;> simp
            · rw [if_neg hkz, if_neg hkz]
              cases vlist r k <;> simp
      · rw [if_neg hc1] at h
        have h : (if vg = "native" ∨ vg = "both" then
            appendVarKey r (f ++ "_native_z") varname else some r) = some r' := h
        by_cases hc2 : vg = "native" ∨ vg = "both"
        · rw [if_pos hc2] at h
          refine ⟨fun k => ?_, appendVarKey_shell h, appendVarKey_keys h⟩
          rw [appendVarKey_vlist h k, nTargets, if_neg hnever]
          simp only [Bool.false_eq_true, if_false, hc1, hc2, true_and, false_and]
          by_cases hkn : k = f ++ "_native_z"
          · rw [if_pos hkn, if_pos hkn]
            cases vlist r k <;> simp
          · rw [if_neg hkn, if_neg hkn]
            cases vlist r k <;> simp
        · rw [if_neg hc2] at h
          injection h with h
          subst h
          refine ⟨fun k => ?_, fun k => rfl, rfl⟩
          rw [nTargets, if_neg hnever]
          simp only [Bool.false_eq_true, if_false, hc1, hc2, false_and]
          cases vlist r k <;> simp

theorem updList_spec {varname : String} {is2D : Bool} {vg : String} :
    ∀ (fs : List String) (r r' : Registry),
    updList varname is2D vg r fs = some r' →
    (∀ k, vlist r' k = (vlist r k).map (fun l => l ++ List.replicate (totalAppends fs is2D vg k) varname))
    ∧ (∀ k, shellAt r' k = shellAt r k)
    ∧ r'.map Prod.fst = r.map Prod.fst := by
  intro fs
  induction fs with
  | nil =>
    intro r r' h
    injection h with h
    subst h
    refine ⟨fun k => ?_, fun k => rfl, rfl⟩
    simp only [totalAppends, List.map_nil, List.sum_nil, List.replicate_zero]
    cases vlist r k <;> simp
  | cons f fs ih =>
    intro r r' h
    rw [updList] at h
    cases hu : upd1 r varname is2D vg f with
    | none => rw [hu] at h; exact absurd h (by simp)
    | some r2 =>
      rw [hu] at h
      obtain ⟨hv1, hs1, hk1⟩ := upd1_spec hu
      obtain ⟨hv2, hs2, hk2⟩ := ih r2 r' h
      refine ⟨fun k => ?_, fun k => (hs2 k).trans (hs1 k), hk2.trans hk1⟩
      rw [hv2 k, hv1 k]
      have : totalAppends (f :: fs) is2D vg k
          = nTargets is2D vg f k + totalAppends fs is2D vg k := by
        simp [totalAppends]
      rw [this, List.replicate_add]
      cases vlist r k <;> simp

theorem aLookup_eq_none {β : Type} {l : List (String × β)} {k : String}
    (h : k ∉ l.map Prod.fst) : aLookup l k = none := by
  induction l with
  | nil => rfl
  | cons p rest ih =>
    obtain ⟨k2, v⟩ := p
    simp only [List.map_cons, List.mem_cons] at h
    push_neg at h
    rw [aLookup, if_neg (by exact fun hEq => h.1 hEq.symm)]
    exact ih h.2

theorem dumpAll_cons (k : String) (t : Template) (rest : Registry) :
    dumpAll ((k, t) :: rest) =
      match dumpStep k t with
      | none => none
      | some (e, t2) =>
        match dumpAll rest with
        | none => none
        | some (fs, r2) =>
          some ((match e with | some x => [(k, x)] | none => []) ++ fs, (k, t2) :: r2) := rfl

theorem dumpAll_keys_sub {r : Registry} {fs : List (String × Template)}
    {r2 : Registry} (h : dumpAll r = some (fs, r2)) :
    ∀ x ∈ fs.map Prod.fst, x ∈ r.map Prod.fst := by
  induction r generalizing fs r2 with
  | nil =>
    rw [dumpAll] at h
    injection h with h
    rw [Prod.mk.injEq] at h
    rw [← h.1]
    simp
  | cons p rest ih =>
    obtain ⟨k0, t0⟩ := p
    rw [dumpAll_cons] at h
    cases hds : dumpStep k0 t0 with
    | none => rw [hds] at h; simp at h
    | some p2 =>
      obtain ⟨e, t2⟩ := p2
      rw [hds] at h
      cases hda : dumpAll rest with
      | none => rw [hda] at h; simp at h
      | some q =>
        obtain ⟨fs', r2'⟩ := q
        rw [hda] at h
        injection h with h
        rw [Prod.mk.injEq] at h
        intro x hx
        rw [← h.1] at hx
        cases e with
        | some y =>
          simp only [List.cons_append, List.nil_append, List.map_cons,
            List.mem_cons] at hx
          rcases hx with hx | hx
          · simp [hx]
          · exact List.mem_cons_of_mem _ (ih hda x hx)
        | none =>
          simp only [List.nil_append] at hx
          exact List.mem_cons_of_mem _ (ih hda x hx)

theorem dumpAll_entry_ok {r : Registry} {fs : List (String × Template)}
    {r2 : Registry} {k : String} {t : Template}
    (h : dumpAll r = some (fs, r2)) (hl : aLookup r k = some t) :
    ∃ e t2, dumpStep k t = some (e, t2) := by
  induction r generalizing fs r2 with
  | nil => simp [aLookup] at hl
  | cons p rest ih =>
    obtain ⟨k0, t0⟩ := p
    rw [dumpAll_cons] at h
    cases hds : dumpStep k0 t0 with
    | none => rw [hds] at h; simp at h
    | some p2 =>
      obtain ⟨e, t2⟩ := p2
      rw [hds] at h
      cases hda : dumpAll rest with
      | none => rw [hda] at h; simp at h
      | some q =>
        obtain ⟨fs', r2'⟩ := q
        rw [hda] at h
        by_cases hk : k0 = k
        · subst hk
          rw [aLookup, if_pos rfl] at hl
          injection hl with hl
          subst hl
          exact ⟨e, t2, hds⟩
        · rw [aLookup, if_neg hk] at hl
          exact ih hda hl

theorem dumpAll_lookup {r : Registry} {files : List (String × Template)}
    {r2 : Registry} (h : dumpAll r = some (files, r2))
    (hk : (r.map Prod.fst).Nodup) (k : String) :
    aLookup files k = (aLookup r k).bind (fun t =>
      match dumpStep k t with
      | some (e, _) => e
      | none => none) := by
  induction r generalizing files r2 with
  | nil =>
    rw [dumpAll] at h
    injection h with h
    rw [Prod.mk.injEq] at h
    rw [← h.1]
    simp [aLookup]
  | cons p rest ih =>
    obtain ⟨k0, t0⟩ := p
    rw [dumpAll_cons] at h
    cases hds : dumpStep k0 t0 with
    | none => rw [hds] at h; simp at h
    | some p2 =>
      obtain ⟨e, t2⟩ := p2
      rw [hds] at h
      cases hda : dumpAll rest with
      | none => rw [hda] at h; simp at h
      | some q =>
        obtain ⟨fs', r2'⟩ := q
        rw [hda] at h
        injection h with h
        rw [Prod.mk.injEq] at h
        obtain ⟨hf, _⟩ := h
        simp only [List.map_cons, List.nodup_cons] at hk
        by_cases hkk : k0 = k
        · subst hkk
          rw [aLookup, if_pos rfl, Option.some_bind, hds]
          rw [← hf]
          cases e with
          | some x => simp [aLookup]
          | none =>
            simp only [List.nil_append]
            exact aLookup_eq_none (fun hm => hk.1 (dumpAll_keys_sub hda k0 hm))
        · rw [aLookup, if_neg hkk]
          rw [← hf]
          cases e with
          | some x =>
            simp only [List.cons_append, List.nil_append, aLookup, if_neg hkk]
            exact ih hda hk.2
          | none =>
            simp only [List.nil_append]
            exact ih hda hk.2

theorem pySplit_ne_nil (sep : Char) (s : List Char) : pySplit sep s ≠ [] := by
  induction s with
  | nil => simp [pySplit]
  | cons c cs ih =>
    rw [pySplit]
    by_cases hc : c = sep
    · simp [hc]
    · rw [if_neg hc]
      cases hps : pySplit sep cs with
      | nil => simp
      | cons p ps => simp

theorem not_mem_headD_pySplit (sep : Char) (s : List Char) :
    sep ∉ (pySplit sep s).headD [] := by
  induction s with
  | nil => simp [pySplit]
  | cons c cs ih =>
    rw [pySplit]
    by_cases hc : c = sep
    · simp [hc]
    · rw [if_neg hc]
      cases hps : pySplit sep cs with
      | nil => simp [List.headD]; exact fun hEq => hc hEq.symm
      | cons p ps =>
        rw [hps] at ih
        simp only [List.headD_cons] at ih ⊢
        intro hm
        rcases List.mem_cons.mp hm with hm | hm
        · exact hc hm.symm
        · exact ih hm

theorem pySplit_of_not_mem {sep : Char} {s : List Char} (h : sep ∉ s) :
    pySplit sep s = [s] := by
  induction s with
  | nil => rfl
  | cons c cs ih =>
    simp only [List.mem_cons] at h
    push_neg at h
    rw [pySplit, if_neg (fun hEq => h.1 hEq.symm), ih h.2]

theorem mem_of_mem_dropWhileL {p : Char → Bool} {c : Char} {l : List Char}
    (h : c ∈ l.dropWhile p) : c ∈ l := by
  induction l with
  | nil => simp [List.dropWhile] at h
  | cons a t ih =>
    rw [List.dropWhile_cons] at h
    by_cases ha : p a = true
    · rw [if_pos ha] at h
      exact List.mem_cons_of_mem _ (ih h)
    · rw [if_neg ha] at h
      exact h

theorem mem_of_mem_dTrail {c : Char} {l : List Char} (h : c ∈ dTrail l) : c ∈ l := by
  rw [dTrail, List.mem_reverse] at h
  have := mem_of_mem_dropWhileL h
  rwa [List.mem_reverse] at this

theorem mem_of_mem_pyStrip {c : Char} {s : List Char} (h : c ∈ pyStrip s) : c ∈ s :=
  mem_of_mem_dropWhileL (mem_of_mem_dTrail h)

theorem head_dropWhile_false {p : Char → Bool} {l : List Char} {c : Char}
    (h : (l.dropWhile p).head? = some c) : p c = false := by
  induction l with
  | nil => simp [List.dropWhile] at h
  | cons a t ih =>
    rw [List.dropWhile_cons] at h
    by_cases ha : p a = true
    · rw [if_pos ha] at h
      exact ih h
    · rw [if_neg ha] at h
      simp only [List.head?_cons] at h
      injection h with h
      rw [← h]
      exact Bool.eq_false_iff.mpr ha

theorem dropWhile_eq_self_of_head {p : Char → Bool} {l : List Char}
    (h : ∀ c, l.head? = some c → p c = false) : l.dropWhile p = l := by
  cases l with
  | nil => rfl
  | cons a t =>
    rw [List.dropWhile_cons, h a rfl]
    simp

theorem dropWhile_idemL (p : Char → Bool) (l : List Char) :
    (l.dropWhile p).dropWhile p = l.dropWhile p :=
  dropWhile_eq_self_of_head (fun _ hc => head_dropWhile_false hc)

theorem exists_append_dropWhile (p : Char → Bool) (l : List Char) :
    ∃ t, l = t ++ l.dropWhile p := by
  induction l with
  | nil => exact ⟨[], rfl⟩
  | cons a t ih =>
    rw [List.dropWhile_cons]
    by_cases ha : p a = true
    · rw [if_pos ha]
      obtain ⟨t0, ht0⟩ := ih
      exact ⟨a :: t0, by rw [List.cons_append, ← ht0]⟩
    · rw [if_neg ha]
      exact ⟨[], rfl⟩

theorem exists_dTrail_append (l : List Char) : ∃ t, l = dTrail l ++ t := by
  obtain ⟨t0, ht0⟩ := exists_append_dropWhile isPySpace l.reverse
  refine ⟨t0.reverse, ?_⟩
  have : l.reverse.reverse = (t0 ++ l.reverse.dropWhile isPySpace).reverse := by
    rw [← ht0]
  rw [List.reverse_reverse, List.reverse_append] at this
  rw [dTrail]
  exact this

theorem head_dTrail {l : List Char} {c : Char} (h : (dTrail l).head? = some c) :
    l.head? = some c := by
  obtain ⟨t, ht⟩ := exists_dTrail_append l
  rw [ht, List.head?_append, h]
  rfl

theorem dropWhile_dTrail_dropWhile (p : Char → Bool) (l : List Char) :
    ((dTrail (l.dropWhile p)).dropWhile p) = dTrail (l.dropWhile p) := by
  refine dropWhile_eq_self_of_head (fun c hc => ?_)
  exact head_dropWhile_false (head_dTrail hc)

theorem dTrail_idem (l : List Char) : dTrail (dTrail l) = dTrail l := by
  rw [dTrail, dTrail, List.reverse_reverse, dropWhile_idemL]

theorem pyStrip_idem (s : List Char) : pyStrip (pyStrip s) = pyStrip s := by
  rw [pyStrip, pyStrip, dropWhile_dTrail_dropWhile, dTrail_idem]

theorem parseEntries_cons (e : List Char) (rest : List (List Char)) :
    parseEntries (e :: rest) =
      match pySplit '_' (pyStrip e) with
      | [f, o] =>
        match parseEntries rest with
        | .ok (fs, os) => .ok (f :: fs, o :: os)
        | .error err => .error err
      | _ => .error .badFreqOp := rfl

theorem parseEntries_ok {es : List (List Char)}
    (h : ∀ e ∈ es, (pySplit '_' (pyStrip e)).length = 2) :
    parseEntries es = .ok
      (es.map (fun e => (pySplit '_' (pyStrip e)).headD []),
       es.map (fun e => ((pySplit '_' (pyStrip e)).drop 1).headD [])) := by
  induction es with
  | nil => rfl
  | cons e rest ih =>
    have hlen := h e (List.mem_cons_self e rest)
    rw [parseEntries_cons]
    cases hsp : pySplit '_' (pyStrip e) with
    | nil => rw [hsp] at hlen; simp at hlen
    | cons f r1 =>
      cases r1 with
      | nil => rw [hsp] at hlen; simp at hlen
      | cons o r2 =>
        cases r2 with
        | cons x r3 => rw [hsp] at hlen; simp at hlen
        | nil =>
          rw [ih (fun e2 he2 => h e2 (List.mem_cons_of_mem _ he2))]
          simp [hsp]

theorem parseEntries_error {es : List (List Char)}
    (h : ∃ e ∈ es, (pySplit '_' (pyStrip e)).length ≠ 2) :
    isError (parseEntries es) = true := by
  induction es with
  | nil => simp at h
  | cons e rest ih =>
    rw [parseEntries_cons]
    obtain ⟨e2, he2, hlen⟩ := h
    cases hsp : pySplit '_' (pyStrip e) with
    | nil => rfl
    | cons f r1 =>
      cases r1 with
      | nil => rfl
      | cons o r2 =>
        cases r2 with
        | cons x r3 => rfl
        | nil =>
          rcases List.mem_cons.mp he2 with hEq | hmem
          · rw [hEq, hsp] at hlen
            simp at hlen
          · have := ih ⟨e2, hmem, hlen⟩
            cases hpe : parseEntries rest with
            | error err => rfl
            | ok q => rw [hpe] at this; simp [isError] at this

theorem pvGet_pvSet_self (pv : List (List Char × List (List Char)))
    (f : List Char) (v : List (List Char)) : pvGet (pvSet pv f v) f = v := by
  induction pv with
  | nil => simp [pvSet, pvGet, pvLookup]
  | cons p rest ih =>
    obtain ⟨k2, v2⟩ := p
    rw [pvSet]
    by_cases hk : k2 = f
    · rw [if_pos hk]
      simp [pvGet, pvLookup, hk]
    · rw [if_neg hk]
      simp only [pvGet, pvLookup, if_neg hk]
      exact ih

theorem pvGet_pvSet_ne (pv : List (List Char × List (List Char)))
    {f f2 : List Char} (v : List (List Char)) (hne : f2 ≠ f) :
    pvGet (pvSet pv f v) f2 = pvGet pv f2 := by
  induction pv with
  | nil =>
    simp only [pvSet, pvGet, pvLookup]
    rw [if_neg (fun hEq => hne hEq.symm)]
  | cons p rest ih =>
    obtain ⟨k2, v2⟩ := p
    rw [pvSet]
    by_cases hk : k2 = f
    · rw [if_pos hk]
      simp only [pvGet, pvLookup]
      rw [if_neg (fun (hEq : k2 = f2) => hne (hEq ▸ hk)),
        if_neg (fun (hEq : k2 = f2) => hne (hEq ▸ hk))]
    · rw [if_neg hk]
      simp only [pvGet, pvLookup]
      by_cases hk2 : k2 = f2
      · rw [if_pos hk2, if_pos hk2]
      · rw [if_neg hk2, if_neg hk2]
        exact ih

theorem pvStep_mono {pv pv2 : List (List Char × List (List Char))}
    {f name : List Char} (h : pvStep pv f name = .ok pv2)
    {f2 n2 : List Char} (hm : n2 ∈ pvGet pv f2) : n2 ∈ pvGet pv2 f2 := by
  rw [pvStep] at h
  by_cases hmem : name ∈ pvGet pv f
  · rw [if_pos hmem] at h
    simp at h
  · rw [if_neg hmem] at h
    injection h with h
    rw [← h]
    by_cases hk : f2 = f
    · subst hk
      rw [pvGet_pvSet_self]
      exact List.mem_append_left _ hm
    · rw [pvGet_pvSet_ne _ _ hk]
      exact hm

theorem dupLoop_mono {fs : List (List Char)} :
    ∀ {pv pv2 : List (List Char × List (List Char))} {name : List Char},
    dupLoop pv name fs = .ok pv2 →
    ∀ {f2 n2 : List Char}, n2 ∈ pvGet pv f2 → n2 ∈ pvGet pv2 f2 := by
  induction fs with
  | nil =>
    intro pv pv2 name h f2 n2 hm
    rw [dupLoop] at h
    injection h with h
    rw [← h]
    exact hm
  | cons f rest ih =>
    intro pv pv2 name h f2 n2 hm
    rw [dupLoop] at h
    cases hps : pvStep pv f name with
    | error e => rw [hps] at h; simp at h
    | ok pv1 =>
      rw [hps] at h
      exact ih h (pvStep_mono hps hm)

theorem dupLoop_records {fs : List (List Char)} :
    ∀ {pv pv2 : List (List Char × List (List Char))} {name : List Char},
    dupLoop pv name fs = .ok pv2 →
    ∀ f ∈ fs, name ∈ pvGet pv2 f := by
  induction fs with
  | nil => intro pv pv2 name h f hf; simp at hf
  | cons f0 rest ih =>
    intro pv pv2 name h f hf
    rw [dupLoop] at h
    cases hps : pvStep pv f0 name with
    | error e => rw [hps] at h; simp at h
    | ok pv1 =>
      rw [hps] at h
      rcases List.mem_cons.mp hf with hEq | hmem
      · subst hEq
        refine dupLoop_mono h ?_
        rw [pvStep] at hps
        by_cases hmem2 : name ∈ pvGet pv f
        · rw [if_pos hmem2] at hps; simp at hps
        · rw [if_neg hmem2] at hps
          injection hps with hps
          rw [← hps, pvGet_pvSet_self]
          exact List.mem_append_right _ (List.mem_singleton_self name)
      · exact ih h f hmem

theorem dupLoop_error {fs : List (List Char)} :
    ∀ {pv : List (List Char × List (List Char))} {name : List Char},
    (∃ f ∈ fs, name ∈ pvGet pv f) →
    dupLoop pv name fs = .error .dupFreq := by
  induction fs with
  | nil => intro pv name h; simp at h
  | cons f0 rest ih =>
    intro pv name h
    obtain ⟨f, hf, hmem⟩ := h
    rw [dupLoop]
    by_cases hmem0 : name ∈ pvGet pv f0
    · rw [pvStep, if_pos hmem0]
    · rw [pvStep, if_neg hmem0]
      have hne : f ≠ f0 := fun hEq => hmem0 (hEq ▸ hmem)
      have hf2 : f ∈ rest := by
        rcases List.mem_cons.mp hf with hEq | hm2
        · exact absurd hEq hne
        · exact hm2
      refine ih ⟨f, hf2, ?_⟩
      rw [pvGet_pvSet_ne _ _ hne]
      exact hmem

theorem processDecl_mono {diag2D_list : List String} {vg : String}
    {all alt : Bool} {st st2 : PState} {v : List Char} {fr op : List (List Char)}
    (h : processDecl diag2D_list vg all alt st v fr op = .ok st2)
    {f n : List Char} (hm : n ∈ pvGet st.processed f) : n ∈ pvGet st2.processed f := by
  unfold processDecl at h
  by_cases hskip : (!alt && hasSubstr "ALT_CO2".data v) = true
  · rw [if_pos hskip] at h
    injection h with h
    rw [← h]
    exact hm
  · rw [if_neg hskip] at h
    cases hd : dupLoop st.processed v fr with
    | error e => rw [hd] at h; simp at h
    | ok pv2 =>
      rw [hd] at h
      cases hu : update st.registry (String.mk v) (fr.map String.mk)
          (decide (String.mk v ∈ diag2D_list)) all vg with
      | none => rw [hu] at h; simp at h
      | some r2 =>
        rw [hu] at h
        injection h with h
        rw [← h]
        exact dupLoop_mono hd hm

theorem processLine_mono {diag2D_list : List String} {vg : String}
    {all alt : Bool} {st st2 : PState} {line : List Char}
    (h : processLine diag2D_list vg all alt st line = .ok st2)
    {f n : List Char} (hm : n ∈ pvGet st.processed f) : n ∈ pvGet st2.processed f := by
  unfold processLine at h
  cases hp : parse_line (pyStrip line) with
  | error e => rw [hp] at h; simp at h
  | ok o =>
    rw [hp] at h
    cases o with
    | none =>
      injection h with h
      rw [← h]
      exact hm
    | some trip =>
      obtain ⟨v, fr, op⟩ := trip
      have h2 : processDecl diag2D_list vg all alt st v fr op = .ok st2 := h
      exact processDecl_mono h2 hm

theorem processLines_mono {diag2D_list : List String} {vg : String}
    {all alt : Bool} {lines : List (List Char)} :
    ∀ {st st2 : PState},
    processLines diag2D_list vg all alt st lines = .ok st2 →
    ∀ {f n : List Char}, n ∈ pvGet st.processed f → n ∈ pvGet st2.processed f := by
  induction lines with
  | nil =>
    intro st st2 h f n hm
    injection h with h
    rw [← h]
    exact hm
  | cons l rest ih =>
    intro st st2 h f n hm
    rw [processLines] at h
    cases hpl : processLine diag2D_list vg all alt st l with
    | error e => rw [hpl] at h; simp at h
    | ok st1 =>
      rw [hpl] at h
      exact ih h (processLine_mono hpl hm)

theorem processLines_append (diag2D_list : List String) (vg : String)
    (all alt : Bool) (xs ys : List (List Char)) (st : PState) :
    processLines diag2D_list vg all alt st (xs ++ ys) =
      match processLines diag2D_list vg all alt st xs with
      | .error e => .error e
      | .ok st2 => processLines diag2D_list vg all alt st2 ys := by
  induction xs generalizing st with
  | nil => simp [processLines]
  | cons l rest ih =>
    rw [List.cons_append, processLines, processLines]
    cases hpl : processLine diag2D_list vg all alt st l with
    | error e => rfl
    | ok st1 => exact ih st1

theorem processDecl_records {diag2D_list : List String} {vg : String}
    {all alt : Bool} {st st2 : PState} {v : List Char} {fr op : List (List Char)}
    (h : processDecl diag2D_list vg all alt st v fr op = .ok st2)
    (hskip : (!alt && hasSubstr "ALT_CO2".data v) = false) :
    ∀ f ∈ fr, v ∈ pvGet st2.processed f := by
  unfold processDecl at h
  rw [if_neg (by rw [hskip]; exact Bool.false_ne_true)] at h
  cases hd : dupLoop st.processed v fr with
  | error e => rw [hd] at h; simp at h
  | ok pv2 =>
    rw [hd] at h
    cases hu : update st.registry (String.mk v) (fr.map String.mk)
        (decide (String.mk v ∈ diag2D_list)) all vg with
    | none => rw [hu] at h; simp at h
    | some r2 =>
      rw [hu] at h
      injection h with h
      rw [← h]
      exact dupLoop_records hd

theorem processLine_records {diag2D_list : List String} {vg : String}
    {all alt : Bool} {st st2 : PState} {line v : List Char}
    {fr op : List (List Char)}
    (h : processLine diag2D_list vg all alt st line = .ok st2)
    (hp : parse_line (pyStrip line) = .ok (some (v, fr, op)))
    (hskip : (!alt && hasSubstr "ALT_CO2".data v) = false) :
    ∀ f ∈ fr, v ∈ pvGet st2.processed f := by
  unfold processLine at h
  rw [hp] at h
  have h2 : processDecl diag2D_list vg all alt st v fr op = .ok st2 := h
  exact processDecl_records h2 hskip

theorem processLine_dup {diag2D_list : List String} {vg : String}
    {all alt : Bool} {st : PState} {line v : List Char}
    {fr op : List (List Char)}
    (hp : parse_line (pyStrip line) = .ok (some (v, fr, op)))
    (hskip : (!alt && hasSubstr "ALT_CO2".data v) = false)
    (hdup : ∃ f ∈ fr, v ∈ pvGet st.processed f) :
    processLine diag2D_list vg all alt st line = .error .dupFreq := by
  unfold processLine
  rw [hp]
  show processDecl diag2D_list vg all alt st v fr op = .error .dupFreq
  unfold processDecl
  rw [if_neg (by rw [hskip]; exact Bool.false_ne_true)]
  rw [dupLoop_error hdup]

theorem dumpStep_fst {k : String} {t : Template} {e : Option Template}
    {t2 : Template} (h : dumpStep k t = some (e, t2)) :
    e.isSome = (match tvl t with
      | some l => decide (0 < l.length)
      | none => false) := by
  cases tf : t.fields with
  | nil => simp [dumpStep, tf] at h
  | cons fe rest =>
    cases tl : fe.lists with
    | nil => simp [dumpStep, tf, tl] at h
    | cons l ls =>
      simp only [dumpStep, tf, tl] at h
      by_cases hlen : 0 < l.length
      · rw [if_pos hlen] at h
        by_cases hq : fe.module = "ocean_model" ∧ pyLast2 k = "_z".data
        · rw [if_pos hq] at h
          injection h with h
          rw [Prod.mk.injEq] at h
          rw [← h.1]
          simp [tvl, tf, tl, hlen]
        · rw [if_neg hq] at h
          injection h with h
          rw [Prod.mk.injEq] at h
          rw [← h.1]
          simp [tvl, tf, tl, hlen]
      · rw [if_neg hlen] at h
        injection h with h
        rw [Prod.mk.injEq] at h
        rw [← h.1]
        simp [tvl, tf, tl, hlen]

theorem nTargets_closed_base (g f : String)
    (hg : g = "low" ∨ g = "medium" ∨ g = "high" ∨ g = "never")
    (hf : f = "low" ∨ f = "medium" ∨ f = "high") :
    nTargets false "both" g f = 0 := by
  rcases hg with rfl | rfl | rfl | rfl <;> rcases hf with rfl | rfl | rfl <;> decide

theorem totalAppends_closed_base {fs : List String}
    (hfs : ∀ g ∈ fs, g = "low" ∨ g = "medium" ∨ g = "high" ∨ g = "never")
    (f : String) (hf : f = "low" ∨ f = "medium" ∨ f = "high") :
    totalAppends fs false "both" f = 0 := by
  induction fs with
  | nil => rfl
  | cons g rest ih =>
    have h1 : nTargets false "both" g f = 0 :=
      nTargets_closed_base g f (hfs g (List.mem_cons_self g rest)) hf
    have h2 : totalAppends rest false "both" f = 0 :=
      ih (fun g2 hg2 => hfs g2 (List.mem_cons_of_mem _ hg2))
    simp only [totalAppends, List.map_cons, List.sum_cons] at h2 ⊢
    rw [h1, h2]

/-- Claim C1: for every call to `update` with `lMARBL_output_all = False` and
vertical-grid selection "both", each frequency tag other than `"never"`
appends the variable name to exactly its target tiers — the base tier for a
2D variable, both the `_z` and `_native_z` variants for a 3D variable — and
to nothing else: for every key `k` the variable list receives exactly
`totalAppends` copies of the name (so the 3D base tier, where the count is
zero, is unchanged), and no other template component changes.  When all tags
come from the closed tier set, the base tier of a 3D variable is unchanged
explicitly. -/
theorem claim_C1_update_both (r r' : Registry) (varname : String)
    (fs : List String) (is2D : Bool)
    (h : update r varname fs is2D false "both" = some r') :
    (∀ k, vlist r' k = (vlist r k).map
      (fun l => l ++ List.replicate (totalAppends fs is2D "both" k) varname))
    ∧ (∀ k, shellAt r' k = shellAt r k)
    ∧ ((∀ g ∈ fs, g = "low" ∨ g = "medium" ∨ g = "high" ∨ g = "never") →
        is2D = false →
        ∀ f, (f = "low" ∨ f = "medium" ∨ f = "high") → vlist r' f = vlist r f) := by
  have h2 : updList varname is2D "both" r fs = some r' := h
  obtain ⟨hv, hs, _⟩ := updList_spec fs r r' h2
  refine ⟨hv, hs, fun hfs h2d f hf => ?_⟩
  subst h2d
  have h0 := totalAppends_closed_base hfs f hf
  rw [hv f, h0]
  cases vlist r f <;> simp

/-- Witness for C1: from the "both" registry, a 3D variable `"FOO"` at
frequency `"low"` lands in `low_z` and `low_native_z` while `low` keeps its
empty list. -/
theorem claim_C1_update_both_witness :
    update (dtInit "both") "FOO" ["low"] false false "both" = some sampleReg
    ∧ vlist sampleReg "low_z" = (vlist (dtInit "both") "low_z").map
        (fun l => l ++ List.replicate (totalAppends ["low"] false "both" "low_z") "FOO")
    ∧ vlist sampleReg "low" = vlist (dtInit "both") "low"
    ∧ vlist sampleReg "low_z" = some ["FOO"]
    ∧ vlist sampleReg "low_native_z" = some ["FOO"]
    ∧ vlist sampleReg "low" = some [] :=
  ⟨rfl,
   (claim_C1_update_both (dtInit "both") sampleReg "FOO" ["low"] false rfl).1 "low_z",
   (claim_C1_update_both (dtInit "both") sampleReg "FOO" ["low"] false rfl).2.2
     (by decide) rfl "low" (Or.inl rfl),
   rfl, rfl, rfl⟩

/-- Claim C3: with `lMARBL_output_all = True` the supplied frequency list is
ignored entirely (any two lists give the same result) and the name is placed
only into the "medium" tier's templates — the key `k` variable list receives
exactly `nTargets is2D vert_grid "medium" k` copies of the name, which is
zero for every non-medium key — and no other template component changes. -/
theorem claim_C3_output_all (r r' : Registry) (varname : String)
    (fs fs2 : List String) (is2D : Bool) (vg : String)
    (h : update r varname fs is2D true vg = some r') :
    update r varname fs2 is2D true vg = some r'
    ∧ (∀ k, vlist r' k = (vlist r k).map
        (fun l => l ++ List.replicate (nTargets is2D vg "medium" k) varname))
    ∧ (∀ k, shellAt r' k = shellAt r k) := by
  have h2 : updList varname is2D vg r ["medium"] = some r' := h
  obtain ⟨hv, hs, _⟩ := updList_spec ["medium"] r r' h2
  refine ⟨h2, fun k => ?_, hs⟩
  have hk := hv k
  rwa [totalAppends, List.map_cons, List.map_nil, List.sum_cons, List.sum_nil,
    Nat.add_zero] at hk

/-- Witness for C3: on the "native" registry with `lMARBL_output_all`, the 3D
variable `"BAR"` declared at `["low", "high"]` goes only to
`medium_native_z`; the same state results from the frequency list
`["never"]`, and `low`'s template keeps its empty list. -/
theorem claim_C3_output_all_witness :
    update (dtInit "native") "BAR" ["never"] false true "native" = some sampleRegAll
    ∧ vlist sampleRegAll "medium_native_z"
        = (vlist (dtInit "native") "medium_native_z").map
            (fun l => l ++ List.replicate
              (nTargets false "native" "medium" "medium_native_z") "BAR")
    ∧ vlist sampleRegAll "medium_native_z" = some ["BAR"]
    ∧ vlist sampleRegAll "low" = some []
    ∧ vlist sampleRegAll "medium" = some [] :=
  ⟨(claim_C3_output_all (dtInit "native") sampleRegAll "BAR" ["low", "high"] ["never"]
      false "native" rfl).1,
   (claim_C3_output_all (dtInit "native") sampleRegAll "BAR" ["low", "high"] ["never"]
      false "native" rfl).2.1 "medium_native_z",
   rfl, rfl, rfl⟩

/-- Claim C9: parsing is idempotent — `_parse_line` applied to
`line.split('#')[0].strip()` returns exactly what it returns on the raw
line (proved for every line, valid or not). -/
theorem claim_C9_parse_idem (line : List Char) :
    parse_line (pyStrip ((pySplit '#' line).headD [])) = parse_line line := by
  rw [parse_line, parse_line]
  have hnm : '#' ∉ pyStrip ((pySplit '#' line).headD []) :=
    fun hm => not_mem_headD_pySplit '#' line (mem_of_mem_pyStrip hm)
  rw [pySplit_of_not_mem hnm]
  simp only [List.headD_cons]
  rw [pyStrip_idem]

/-- Claim C10: frequency tags are never validated against the tier set: the
well-formed line `"FOO : weekly_mean"` parses successfully, and `update`
then hits a missing registry key (`KeyError`, modelled as `none` /
`RunErr.keyErr`) instead of the fatal-error reporting path. -/
theorem claim_C10_unknown_freq_keyerror :
    parse_line "FOO : weekly_mean".data
      = .ok (some ("FOO".data, ["weekly".data], ["mean".data]))
    ∧ update (dtInit "both") "FOO" ["weekly"] false false "both" = none
    ∧ processLine [] "both" false false ⟨[], dtInit "both"⟩ "FOO : weekly_mean".data
      = .error .keyErr :=
  ⟨rfl, rfl, rfl⟩

/-- Claim C2: for every registry, `dump_to_json` serializes each stored tier
whose user variable list is non-empty, appending the hardcoded transport
list `["volcello", "vmo", "vhGM", "vhml", "umo", "uhGM", "uhml"]` as a second
list entry exactly when the tier's `module` is `"ocean_model"` and the tier
name ends in `"_z"`; every other serialized tier is emitted unchanged, so no
other tier receives the transport list. -/
theorem claim_C2_dump_transports (r : Registry) (files : List (String × Template))
    (r2 : Registry) (hk : (r.map Prod.fst).Nodup)
    (h : dumpAll r = some (files, r2)) (k : String) :
    aLookup files k = (aLookup r k).bind (fun t =>
      match t.fields with
      | fe :: rest =>
        match fe.lists with
        | l :: ls =>
          if 0 < l.length then
            some (if fe.module = "ocean_model" ∧ pyLast2 k = "_z".data then
              { t with fields := { fe with lists := (l :: ls)
                  ++ [["volcello", "vmo", "vhGM", "vhml", "umo", "uhGM", "uhml"]] } :: rest }
              else t)
          else none
        | [] => none
      | [] => none) := by
  rw [dumpAll_lookup h hk k]
  cases hal : aLookup r k with
  | none => rfl
  | some t =>
    simp only [Option.some_bind]
    cases tf : t.fields with
    | nil => simp [dumpStep, tf]
    | cons fe rest =>
      cases tl : fe.lists with
      | nil => simp [dumpStep, tf, tl]
      | cons l ls =>
        by_cases hlen : 0 < l.length
        · by_cases hq : fe.module = "ocean_model" ∧ pyLast2 k = "_z".data
          · simp [dumpStep, tf, tl, hlen, hq, transports]
          · simp [dumpStep, tf, tl, hlen, hq]
        · simp [dumpStep, tf, tl, hlen]

/-- Witness for C2: dumping `sampleReg` serializes `low_native_z` (native
module, name ending in `"_z"`) with the transport list appended after the
user variables, and serializes nothing for the empty `medium` tier. -/
theorem claim_C2_dump_transports_witness :
    (sampleReg.map Prod.fst).Nodup
    ∧ dumpAll sampleReg = some sampleDump
    ∧ vlistsAt sampleDump.1 "low_native_z" = some [["FOO"], transports]
    ∧ aLookup sampleDump.1 "medium" = none
    ∧ aLookup sampleDump.1 "low_native_z"
        = (aLookup sampleReg "low_native_z").bind (fun t =>
          match t.fields with
          | fe :: rest =>
            match fe.lists with
            | l :: ls =>
              if 0 < l.length then
                some (if fe.module = "ocean_model" ∧ pyLast2 "low_native_z" = "_z".data then
                  { t with fields := { fe with lists := (l :: ls)
                      ++ [["volcello", "vmo", "vhGM", "vhml", "umo", "uhGM", "uhml"]] } :: rest }
                  else t)
              else none
            | [] => none
          | [] => none) :=
  ⟨by decide, rfl, rfl, rfl,
   claim_C2_dump_transports sampleReg sampleDump.1 sampleDump.2 (by decide) rfl
     "low_native_z"⟩

/-- Claim C7: `dump_to_json` serializes exactly the tiers whose user variable
list is non-empty (an empty tier's key never appears in "Files"); when no
tier qualifies the "Files" document is empty, so no output file is written
and the warning is printed instead — the dump still returns normally. -/
theorem claim_C7_dump_nonempty (r : Registry) (files : List (String × Template))
    (r2 : Registry) (hk : (r.map Prod.fst).Nodup)
    (h : dumpAll r = some (files, r2)) :
    (∀ k, (aLookup files k).isSome = tierNonemptyAt r k)
    ∧ dumpWrites r = some (!files.isEmpty)
    ∧ dumpWarns r = some files.isEmpty
    ∧ ((∀ k, tierNonemptyAt r k = false) → files = []) := by
  have hmem : ∀ k, (aLookup files k).isSome = tierNonemptyAt r k := by
    intro k
    rw [dumpAll_lookup h hk k]
    cases hal : aLookup r k with
    | none => simp [tierNonemptyAt, vlist, hal]
    | some t =>
      obtain ⟨e, t2, hds⟩ := dumpAll_entry_ok h hal
      simp only [Option.some_bind, hds]
      rw [dumpStep_fst hds]
      simp [tierNonemptyAt, vlist, hal]
  refine ⟨hmem, ?_, ?_, ?_⟩
  · rw [dumpWrites, h, Option.map_some']
  · rw [dumpWarns, h, Option.map_some']
  · intro hall
    cases hf : files with
    | nil => rfl
    | cons p fs =>
      exfalso
      obtain ⟨k0, t0⟩ := p
      have h1 := hmem k0
      rw [hall k0, hf] at h1
      simp [aLookup] at h1

/-- Witness for C7: the freshly built "both" registry has only empty
variable lists, so its dump serializes nothing, writes no file, and prints
the warning. -/
theorem claim_C7_dump_nonempty_witness :
    (aLookup ([] : List (String × Template)) "medium").isSome
      = tierNonemptyAt (dtInit "both") "medium"
    ∧ dumpWrites (dtInit "both") = some false
    ∧ dumpWarns (dtInit "both") = some true :=
  ⟨(claim_C7_dump_nonempty (dtInit "both") [] (dtInit "both") (by decide) rfl).1 "medium",
   (claim_C7_dump_nonempty (dtInit "both") [] (dtInit "both") (by decide) rfl).2.1,
   (claim_C7_dump_nonempty (dtInit "both") [] (dtInit "both") (by decide) rfl).2.2.1⟩

/-- Claim C4 is violated by the code: `dump_to_json`'s `dict.copy()` is
shallow, so appending the transport list mutates the registry's own
template.  After one `update` of a 3D `"FOO"` at `"low"`, the stored
`low_native_z` template's `"lists"` field is `[["FOO"]]`; after `dump` it has
become `[["FOO"], transports]`, and a second dump both appends the
transports again in the registry's template and emits them twice in its
"Files" document. -/
theorem claim_C4_dump_mutates_template :
    vlistsAt sampleReg "low_native_z" = some [["FOO"]]
    ∧ (dumpAll sampleReg).map (fun p => vlistsAt p.2 "low_native_z")
        = some (some [["FOO"], transports])
    ∧ (dumpAll sampleReg).bind
        (fun p => (dumpAll p.2).map (fun q => vlistsAt q.2 "low_native_z"))
        = some (some [["FOO"], transports, transports])
    ∧ (dumpAll sampleReg).bind
        (fun p => (dumpAll p.2).map (fun q => vlistsAt q.1 "low_native_z"))
        = some (some [["FOO"], transports, transports]) :=
  ⟨rfl, rfl, rfl, rfl⟩

/-- Counterexample to claim C5 as stated: in the file whose two lines both
declare `ALT_CO2_FOO : low_mean` the name appears twice at the same
frequency tag, yet the run finishes normally (no fatal exit), because the
ALT_CO2 skip precedes the duplicate check. -/
theorem claim_C5_counterexample :
    parse_line (pyStrip "ALT_CO2_FOO : low_mean".data)
      = .ok (some ("ALT_CO2_FOO".data, ["low".data], ["mean".data]))
    ∧ processLines [] "both" false false ⟨[], dtInit "both"⟩
        ["ALT_CO2_FOO : low_mean".data, "ALT_CO2_FOO : low_mean".data]
      = .ok ⟨[], dtInit "both"⟩ :=
  ⟨rfl, rfl⟩

/-- Claim C5 (amended): if two non-skipped declarations of the same variable
name share a frequency tag, and the run reaches the second declaration
without an earlier fatal error, then processing the second declaration first
records nothing new and aborts with the duplicate-frequency fatal error;
the tracking is global — any prefix, lines in between, and suffix are
allowed, the seen-names map only grows along the run. -/
theorem claim_C5_duplicate_fatal (diag2D_list : List String) (vg : String)
    (all alt : Bool) (st0 st1 : PState) (pre mid post : List (List Char))
    (l1 l2 v : List Char) (fr1 op1 fr2 op2 : List (List Char)) (f : List Char)
    (hp1 : parse_line (pyStrip l1) = .ok (some (v, fr1, op1)))
    (hp2 : parse_line (pyStrip l2) = .ok (some (v, fr2, op2)))
    (hskip : (!alt && hasSubstr "ALT_CO2".data v) = false)
    (hf1 : f ∈ fr1) (hf2 : f ∈ fr2)
    (hpre : processLines diag2D_list vg all alt st0 (pre ++ l1 :: mid) = .ok st1) :
    processLines diag2D_list vg all alt st0 (pre ++ l1 :: mid ++ l2 :: post)
      = .error .dupFreq := by
  have hpre' := hpre
  rw [processLines_append] at hpre'
  cases hpa : processLines diag2D_list vg all alt st0 pre with
  | error e => rw [hpa] at hpre'; simp at hpre'
  | ok sta =>
    rw [hpa] at hpre'
    have hpre2 : processLines diag2D_list vg all alt sta (l1 :: mid) = .ok st1 := hpre'
    simp only [processLines] at hpre2
    cases hpl1 : processLine diag2D_list vg all alt sta l1 with
    | error e => rw [hpl1] at hpre2; simp at hpre2
    | ok stb =>
      rw [hpl1] at hpre2
      have hpre3 : processLines diag2D_list vg all alt stb mid = .ok st1 := hpre2
      have hrec := processLine_records hpl1 hp1 hskip f hf1
      have hseen : v ∈ pvGet st1.processed f := processLines_mono hpre3 hrec
      have hassoc : pre ++ l1 :: mid ++ l2 :: post = (pre ++ l1 :: mid) ++ l2 :: post := by
        rw [List.append_assoc, List.cons_append]
      rw [hassoc, processLines_append, hpre]
      show processLines diag2D_list vg all alt st1 (l2 :: post) = .error .dupFreq
      simp only [processLines]
      rw [processLine_dup hp2 hskip ⟨f, hf2, hseen⟩]

/-- Witness for the amended C5: the spec example — the file consisting of
`"BAR : low_mean"` twice — aborts with the duplicate-frequency fatal error
at the second line. -/
theorem claim_C5_duplicate_fatal_witness :
    processLines [] "both" false false ⟨[], dtInit "both"⟩
      ["BAR : low_mean".data, "BAR : low_mean".data] = .error .dupFreq :=
  claim_C5_duplicate_fatal [] "both" false false ⟨[], dtInit "both"⟩ sampleSt
    [] [] [] "BAR : low_mean".data "BAR : low_mean".data "BAR".data
    ["low".data] ["mean".data] ["low".data] ["mean".data] "low".data
    rfl rfl rfl (by decide) (by decide) rfl

/-- Claim C6: a non-blank line (after comment-stripping) that does not split
into exactly two parts on `':'`, or whose rest contains a comma-entry not
splitting into exactly two parts on `'_'`, makes `_parse_line` exit fatally
(`sys.exit(1)`, modelled as the error result). -/
theorem claim_C6_malformed_fatal (line : List Char)
    (hnb : pyStrip ((pySplit '#' line).headD []) ≠ [])
    (hbad : (pySplit ':' (pyStrip ((pySplit '#' line).headD []))).length ≠ 2
      ∨ ∃ a b, pySplit ':' (pyStrip ((pySplit '#' line).headD [])) = [a, b]
          ∧ ∃ e ∈ pySplit ',' b, (pySplit '_' (pyStrip e)).length ≠ 2) :
    isError (parse_line line) = true := by
  rw [parse_line, parseCore]
  rw [if_neg (fun hlen => hnb (List.length_eq_zero.mp hlen))]
  cases hsp : pySplit ':' (pyStrip ((pySplit '#' line).headD [])) with
  | nil => rfl
  | cons a r1 =>
    cases r1 with
    | nil => rfl
    | cons b r2 =>
      cases r2 with
      | cons c r3 => rfl
      | nil =>
        show isError (match parseEntries (pySplit ',' b) with
          | Except.ok (fs, os) => Except.ok (some (pyStrip a, fs, os))
          | Except.error e => Except.error e) = true
        rcases hbad with hlen | ⟨a2, b2, heq, he⟩
        · rw [hsp] at hlen
          simp at hlen
        · rw [hsp] at heq
          injection heq with h1 h2
          injection h2 with h2 h3
          subst h2
          have herr := parseEntries_error he
          cases hpe : parseEntries (pySplit ',' b) with
          | error e2 => rfl
          | ok q => rw [hpe] at herr; simp [isError] at herr

/-- Witness for C6: the spec example `"FOO low_mean"` (missing `':'`) is
fatal. -/
theorem claim_C6_malformed_fatal_witness :
    pyStrip ((pySplit '#' "FOO low_mean".data).headD []) ≠ []
    ∧ (pySplit ':' (pyStrip ((pySplit '#' "FOO low_mean".data).headD []))).length ≠ 2
    ∧ isError (parse_line "FOO low_mean".data) = true :=
  ⟨by decide, by decide,
   claim_C6_malformed_fatal "FOO low_mean".data (by decide) (Or.inl (by decide))⟩

/-- Claim C8: a well-formed declaration line — its stripped text splits as
`[name, rest]` on `':'` and every comma-entry of `rest` splits into exactly
two parts on `'_'` — parses to the stripped name with the ordered frequency
tags (first `'_'` parts) and ordered operator tags (second parts). -/
theorem claim_C8_wellformed_parse (line a b : List Char)
    (hsplit : pySplit ':' (pyStrip ((pySplit '#' line).headD [])) = [a, b])
    (hents : ∀ e ∈ pySplit ',' b, (pySplit '_' (pyStrip e)).length = 2) :
    parse_line line = .ok (some (pyStrip a,
      (pySplit ',' b).map (fun e => (pySplit '_' (pyStrip e)).headD []),
      (pySplit ',' b).map (fun e => ((pySplit '_' (pyStrip e)).drop 1).headD []))) := by
  rw [parse_line, parseCore]
  have hnb : ¬ (pyStrip ((pySplit '#' line).headD [])).length = 0 := by
    intro hlen
    have hz : pyStrip ((pySplit '#' line).headD []) = [] := List.length_eq_zero.mp hlen
    rw [hz] at hsplit
    have := congrArg List.length hsplit
    simp [pySplit] at this
  rw [if_neg hnb, hsplit]
  show (match parseEntries (pySplit ',' b) with
    | Except.ok (fs, os) => Except.ok (some (pyStrip a, fs, os))
    | Except.error e => Except.error e) = _
  rw [parseEntries_ok hents]

/-- Witness for C8: the spec examples — `"FOO : low_mean, high_inst"` parses
to the name and the ordered tag lists; `"FOO : low_mean"` likewise. -/
theorem claim_C8_wellformed_parse_witness :
    parse_line "FOO : low_mean, high_inst".data
      = .ok (some ("FOO".data, ["low".data, "high".data], ["mean".data, "inst".data]))
    ∧ parse_line "FOO : low_mean".data
      = .ok (some ("FOO".data, ["low".data], ["mean".data])) :=
  ⟨claim_C8_wellformed_parse "FOO : low_mean, high_inst".data
     "FOO ".data " low_mean, high_inst".data rfl (by decide),
   claim_C8_wellformed_parse "FOO : low_mean".data
     "FOO ".data " low_mean".data rfl (by decide)⟩
